import Mathlib

/-!
Verification of the Flickr hashtag-map application (flikr_app).

Shallow embedding of src/main.py, src/flikr_app/flikr.py and
src/flikr_app/utils.py.  Side effects (API calls, folium map saves,
selenium driver actions, the final subprocess call, logging) are recorded
as an explicit event trace.  Python exceptions are modelled by the PyErr
type; the mutable attributes of the FlickParser object (current_limit,
the folium pin set, the driver) are threaded as an explicit state St.
-/

namespace Flickr

/-- A photo record as consumed by FlickParser.process_photo_page
(fields latitude, longitude, title).  The claims never compute with the
coordinate values, so they are carried as integers. -/
structure Photo where
  latitude : Int
  longitude : Int
  title : String
deriving DecidableEq, Repr

/-- A pin on the folium map: add_pin builds
folium.Marker(location=[lat, long], popup=title). -/
structure Pin where
  lat : Int
  long : Int
  popup : String
deriving DecidableEq, Repr

/-- A dynamically typed value in the parsed JSON response.  Only the shapes
the code inspects are distinguished: a list of photo records, an integer,
or anything else. -/
inductive PVal
  | list (ps : List Photo)
  | int (n : Int)
  | other
deriving DecidableEq, Repr

/-- Python isinstance(v, list). -/
def PVal.isList : PVal → Bool
  | .list _ => true
  | _ => false

/-- Python isinstance(v, int). -/
def PVal.isInt : PVal → Bool
  | .int _ => true
  | _ => false

/-- The dict returned by flickr.photos.search(...)["photos"]: each field
is none when the corresponding key is absent from the dict. -/
structure RawPage where
  photo : Option PVal
  pages : Option PVal
  total : Option PVal
deriving DecidableEq, Repr

/-- The Python exceptions that can escape the code under src/:
AssertionError (raised by the validator asserts), KeyError (raised by a
dict lookup on a missing key), flickrapi.FlickrError (raised by the API
client) and selenium WebDriverException (raised by the driver). -/
inductive PyErr
  | assertionError (msg : String)
  | keyError (key : String)
  | flickrError (msg : String)
  | webDriverError (msg : String)
deriving DecidableEq, Repr

/-- The spec calls a validation failure a SchemaError; in the code those
are the AssertionError raised by the assert statements of
validate_api_response. -/
def isSchemaError : PyErr → Bool
  | .assertionError _ => true
  | _ => false

/-- str(exception_value) as used by the log_error call in FlickParser.
The message payload of the exception. -/
def errStr : PyErr → String
  | .assertionError m => m
  | .keyError k => k
  | .flickrError m => m
  | .webDriverError m => m

/-- Observable actions of a run.  The log_info and log_error calls are
modelled per call site, carrying their dynamic payloads. -/
inductive Event
  | fetch (page : Int)
  | addPin (p : Pin)
  | mapSave (pins : List Pin)
  | driverRefresh
  | driverOpen
  | removeMapFile
  | driverQuit
  | openMapCmd
  | logInit
  | logNoImages
  | logStartProcess (total : PVal)
  | logProcessingPage (shown : Int)
  | logNoPhotos (page : Int)
  | logLimitReached (lim : Int)
  | logProcessed (count : Nat)
  | logError (msg : String) (err : String)
deriving DecidableEq, Repr

/-- The external world: the search API (one response per page parameter,
the only query field the loop ever changes) and the selenium driver (the
outcome of its n-th refresh call: none means success, some m means a
WebDriverException with message m). -/
structure Env where
  api : Int → Except String RawPage
  driver : Nat → Option String

/-- The CLI configuration reaching FlickParser.__init__.  In Python,
limit is Optional[int] and refresh_map_after defaults to 0. -/
structure Config where
  hashtag : String
  limit : Option Int
  refresh_map_after : Int
deriving DecidableEq, Repr

/-- Mutable state of the FlickParser object: the photo counter
current_limit, the pins accumulated on the folium map, and the number of
driver.refresh calls attempted so far (the index into Env.driver). -/
structure St where
  current_limit : Nat
  pins : List Pin
  refreshes : Nat
deriving DecidableEq, Repr

/-- Python truthiness of the optional limit, as tested by
"if self.limit and ...": None and 0 are falsy. -/
def limitTruthy : Option Int → Bool
  | none => false
  | some v => v != 0

/-- The integer value of the limit when present (unused when absent). -/
def limitVal : Option Int → Int
  | none => 0
  | some v => v

/-- main.py: "limit = int(args.limit) if args.limit else None" — a CLI
limit of 0 (or an absent one) becomes None before FlickParser is built. -/
def mainLimit : Option Int → Option Int
  | none => none
  | some v => if v != 0 then some v else none

/-- utils.validate_api_response: three checks in textual order.  The
first two are assert statements; the third is
"assert isinstance(photos[\x7bmissing\x7d..." — precisely,
isinstance(photos["pages"], int): the dict lookup runs first, so a
missing pages key raises KeyError("pages") rather than AssertionError. -/
def validate_api_response (photos : RawPage) : Except PyErr Unit :=
  match photos.photo with
  | none => .error (.assertionError "Photo key is missing")
  | some v =>
    if v.isList then
      match photos.pages with
      | none => .error (.keyError "pages")
      | some w =>
        if w.isInt then .ok ()
        else .error (.assertionError "The number of pages should be an integer")
    else .error (.assertionError "Photos must be a list. Weird response from flickr")

/-- The value of photos["photo"] once validation has passed (a list). -/
def RawPage.photoList (p : RawPage) : List Photo :=
  match p.photo with
  | some (.list ps) => ps
  | _ => []

/-- The value of photos["pages"] once validation has passed (an int). -/
def RawPage.pagesInt (p : RawPage) : Int :=
  match p.pages with
  | some (.int n) => n
  | _ => 0

/-- FlickParser.get_photos: one API call with the given page parameter;
a FlickrError is logged and re-raised, otherwise the response is run
through validate_api_response and returned. -/
def get_photos (env : Env) (page : Int) : List Event × Except PyErr RawPage :=
  match env.api page with
  | .error m =>
    ([.fetch page, .logError "An error has occurred while accessing the flickr API. Error: " m],
     .error (.flickrError m))
  | .ok photos =>
    match validate_api_response photos with
    | .error e => ([.fetch page], .error e)
    | .ok _ => ([.fetch page], .ok photos)

/-- FlickParser.map_refresh: folium_map.save(PATH_TO_MAP) followed by
driver.refresh(), which may raise a WebDriverException. -/
def map_refresh (env : Env) (s : St) : List Event × St × Option PyErr :=
  match env.driver s.refreshes with
  | none =>
    ([.mapSave s.pins, .driverRefresh],
     { s with refreshes := s.refreshes + 1 }, none)
  | some m =>
    ([.mapSave s.pins],
     { s with refreshes := s.refreshes + 1 }, some (.webDriverError m))

/-- Outcome of the for-loop body of process_photo_page: an early
"return False" (limit reached), normal fall-through past the last photo,
or a raised exception. -/
inductive ForOut
  | retFalse
  | fallthrough
  | raised (e : PyErr)
deriving DecidableEq, Repr

/-- The "for photo in photos" loop of FlickParser.process_photo_page
(flikr.py lines 174-186): the guard
"if self.limit and self.current_limit >= self.limit" checks Python
truthiness of limit before comparing; then add_pin, the increment of
current_limit, and the mid-page refresh when refresh_map_after is truthy
and divides the new count. -/
def photoLoop (cfg : Config) (env : Env) : List Photo → St → List Event × St × ForOut
  | [], s => ([], s, .fallthrough)
  | photo :: rest, s =>
    if limitTruthy cfg.limit ∧ limitVal cfg.limit ≤ (s.current_limit : Int) then
      ([.logLimitReached (limitVal cfg.limit)], s, .retFalse)
    else
      let pin : Pin := ⟨photo.latitude, photo.longitude, photo.title⟩
      let s₁ : St := ⟨s.current_limit + 1, s.pins ++ [pin], s.refreshes⟩
      if cfg.refresh_map_after ≠ 0 ∧
          (s₁.current_limit : Int).emod cfg.refresh_map_after = 0 then
        match map_refresh env s₁ with
        | (mevs, s₂, none) =>
          match photoLoop cfg env rest s₂ with
          | (evs, s₃, out) => (Event.addPin pin :: mevs ++ evs, s₃, out)
        | (mevs, s₂, some e) => (Event.addPin pin :: mevs, s₂, .raised e)
      else
        match photoLoop cfg env rest s₁ with
        | (evs, s₂, out) => (Event.addPin pin :: evs, s₂, out)

/-- FlickParser.process_photo_page: empty page logs and returns False;
otherwise the photo loop runs, and on fall-through the page-boundary
refresh fires exactly when refresh_map_after is falsy (== 0), then the
processed count is logged and True returned. -/
def process_photo_page (cfg : Config) (env : Env) (page : Int)
    (photos : List Photo) (s : St) : List Event × St × Except PyErr Bool :=
  match photos with
  | [] => ([.logNoPhotos page], s, .ok false)
  | ph :: rest =>
    match photoLoop cfg env (ph :: rest) s with
    | (evs, s₁, .retFalse) => (evs, s₁, .ok false)
    | (evs, s₁, .raised e) => (evs, s₁, .error e)
    | (evs, s₁, .fallthrough) =>
      if cfg.refresh_map_after = 0 then
        match map_refresh env s₁ with
        | (mevs, s₂, none) =>
          (evs ++ mevs ++ [.logProcessed s₂.current_limit], s₂, .ok true)
        | (mevs, s₂, some e) => (evs ++ mevs, s₂, .error e)
      else
        (evs ++ [.logProcessed s₁.current_limit], s₁, .ok true)

/-- Python range(a, b) over the integers produced by the parse loop. -/
def pyRange (a b : Int) : List Int :=
  (List.range (b - a).toNat).map (fun i => a + i)

/-- The "for page in range(start, total_pages)" loop of FlickParser.parse
(flikr.py lines 150-157): log the page, process the previously fetched
records, break when process_photo_page returns False, otherwise set
query_params["page"] = page and fetch again. -/
def parseLoop (cfg : Config) (env : Env) (start : Int) :
    List Int → List Photo → St → List Event × St × Option PyErr
  | [], _, s => ([], s, none)
  | page :: rest, curPhotos, s =>
    let logEv := Event.logProcessingPage (if start = 0 then page + 1 else page - 1)
    match process_photo_page cfg env page curPhotos s with
    | (evs, s₁, .error e) => (logEv :: evs, s₁, some e)
    | (evs, s₁, .ok false) => (logEv :: evs, s₁, none)
    | (evs, s₁, .ok true) =>
      match get_photos env page with
      | (evs₂, .error e) => ((logEv :: evs) ++ evs₂, s₁, some e)
      | (evs₂, .ok photos) =>
        match parseLoop cfg env start rest photos.photoList s₁ with
        | (evs₃, s₂, err) => ((logEv :: evs) ++ evs₂ ++ evs₃, s₂, err)

/-- FlickParser.parse: fetch page 1, return early when page 1 is empty,
read total_pages (guaranteed int by validation), pick
start = 0 if total_pages == 1 else 2, read photos["total"] for the log
message (an unvalidated dict lookup: KeyError when absent), then run the
page loop over range(start, total_pages). -/
def parse (cfg : Config) (env : Env) (s : St) : List Event × St × Option PyErr :=
  match get_photos env 1 with
  | (evs, .error e) => (evs, s, some e)
  | (evs, .ok photos) =>
    if photos.photoList.length = 0 then
      (evs ++ [.logNoImages], s, none)
    else
      let total_pages : Int := photos.pagesInt
      let start : Int := if total_pages = 1 then 0 else 2
      match photos.total with
      | none => (evs, s, some (.keyError "total"))
      | some t =>
        match parseLoop cfg env start (pyRange start total_pages) photos.photoList s with
        | (evs₂, s₂, err) => (evs ++ [Event.logStartProcess t] ++ evs₂, s₂, err)

/-- FlickParser.__exit__: driver.quit(), a final folium_map.save, the
subprocess call opening the artifact, an error log when an exception
reached the boundary — and the unconditional "return True" that makes
the with-statement suppress the exception. -/
def flickExit (err : Option PyErr) (s : St) : List Event × Bool :=
  ([.driverQuit, .mapSave s.pins, .openMapCmd] ++
    (match err with
     | some e => [Event.logError "" (errStr e)]
     | none => []),
   true)

/-- Result of one whole run of the with-statement in main.py. -/
structure RunResult where
  events : List Event
  state : St
  bodyError : Option PyErr
  raised : Option PyErr
deriving DecidableEq, Repr

/-- One run of "with FlickParser(...) as p: p.parse()".  __init__ builds
the folium map (initialize_folium_map saves an empty artifact), starts
the driver on the artifact URL and logs the configuration; __enter__
removes the artifact file (it exists: it was just saved); the body runs
parse; __exit__ runs on every path and, returning True, suppresses any
exception raised by the body. -/
def run (cfg : Config) (env : Env) : RunResult :=
  let initEvs : List Event := [.mapSave [], .driverOpen, .logInit, .removeMapFile]
  match parse cfg env ⟨0, [], 0⟩ with
  | (evs, s₁, err) =>
    match flickExit err s₁ with
    | (exitEvs, suppress) =>
      { events := initEvs ++ evs ++ exitEvs
        state := s₁
        bodyError := err
        raised := if suppress then none else err }

/-- Exit status of the Python process running main: non-zero exactly when
an exception escapes the with-statement. -/
def exitCode (r : RunResult) : Nat :=
  if r.raised.isSome then 1 else 0

/-- Event counters used by the claims. -/
def isFetchEv : Event → Bool
  | .fetch _ => true
  | _ => false

def fetchCount (evs : List Event) : Nat := evs.countP isFetchEv

def isAddPinEv : Event → Bool
  | .addPin _ => true
  | _ => false

def addPinCount (evs : List Event) : Nat := evs.countP isAddPinEv

def isRefreshEv : Event → Bool
  | .driverRefresh => true
  | _ => false

def refreshCount (evs : List Event) : Nat := evs.countP isRefreshEv

def isLogProcessedEv : Event → Bool
  | .logProcessed _ => true
  | _ => false

def logProcCount (evs : List Event) : Nat := evs.countP isLogProcessedEv

def isEmptySaveEv : Event → Bool
  | .mapSave [] => true
  | _ => false

def emptySaveCount (evs : List Event) : Nat := evs.countP isEmptySaveEv

/-- Projection of the event trace onto the observations the refresh-policy
claims talk about: pin additions, driver reloads, and the terminal
subprocess call that opens the final artifact. -/
inductive REv
  | pin
  | refresh
  | opened
deriving DecidableEq, Repr

def toREv : Event → Option REv
  | .addPin _ => some .pin
  | .driverRefresh => some .refresh
  | .openMapCmd => some .opened
  | _ => none

def rtrace (evs : List Event) : List REv := evs.filterMap toREv

/-- The reload pattern the spec prescribes for refreshAfter = k, written
for pins numbered m+1, ..., m+n: each pin, followed by a reload exactly
when the pin number is an exact multiple of k. -/
def canonSeg (k : Int) : Nat → Nat → List REv
  | _, 0 => []
  | m, n + 1 =>
    REv.pin :: ((if ((m + 1 : Nat) : Int).emod k = 0 then [REv.refresh] else []) ++
      canonSeg k (m + 1) n)

/-! Concrete inputs used by the counterexamples, evaluations and
witnesses. -/

def phA : Photo := ⟨10, 20, "t"⟩

def cfgPlain : Config := ⟨"x", none, 0⟩

/-- Page 1 of the C1 scenario: 500 records, 2 total pages, 510 total. -/
def pageC1a : RawPage := ⟨some (.list (List.replicate 500 phA)), some (.int 2), some (.int 510)⟩

/-- Page 2 of the C1 scenario: 10 records. -/
def pageC1b : RawPage := ⟨some (.list (List.replicate 10 phA)), some (.int 2), some (.int 510)⟩

def envC1 : Env := ⟨fun p => if p = 1 then .ok pageC1a else .ok pageC1b, fun _ => none⟩

def cfgC1 : Config := ⟨"rain", none, 0⟩

/-- A single-page response: 3 records, totalPages = 1. -/
def pageOne3 : RawPage := ⟨some (.list (List.replicate 3 phA)), some (.int 1), some (.int 3)⟩

/-- A valid empty page (what the stray page-0 fetch of the one-page run
returns). -/
def pageEmptyValid : RawPage := ⟨some (.list []), some (.int 1), some (.int 0)⟩

def envOne3 : Env := ⟨fun p => if p = 1 then .ok pageOne3 else .ok pageEmptyValid, fun _ => none⟩

/-- An environment whose every fetch fails at transport level. -/
def envDown : Env := ⟨fun _ => .error "network down", fun _ => none⟩

/-- A raw page whose results field is a list but whose page-count field is
absent. -/
def noPagesPage : RawPage := ⟨some (.list []), none, none⟩

def envNoPages : Env := ⟨fun _ => .ok noPagesPage, fun _ => none⟩

/-- An environment returning zero results on page 1. -/
def envEmpty : Env := ⟨fun _ => .ok ⟨some (.list []), some (.int 0), none⟩, fun _ => none⟩

/-- A single page of 2 records together with a driver whose every refresh
raises. -/
def pageTwo : RawPage := ⟨some (.list (List.replicate 2 phA)), some (.int 1), some (.int 2)⟩

def envDriverFail : Env := ⟨fun _ => .ok pageTwo, fun _ => some "refresh failed"⟩

def cfgRefresh1 : Config := ⟨"x", none, 1⟩

def cfgRefresh2 : Config := ⟨"x", none, 2⟩

def cfgLimit5 : Config := ⟨"x", some 5, 0⟩

def cfgLimitNeg : Config := ⟨"x", some (-1), 0⟩

def cfgLimitZero : Config := ⟨"x", some 0, 0⟩

/-! Theorems. -/

set_option maxRecDepth 4000

/-- Claim C1: the spec scenario (no limit, 2 total pages, 500 records on
page 1, 10 on page 2) must end with processedCount = 510 after visiting
page 2.  The code instead terminates with processedCount = 0: its loop is
"for page in range(2, total_pages)", which is empty when total_pages = 2,
so not a single record of either page is processed and only the initial
fetch is ever issued. -/
theorem c1_pagination_drops_pages :
    (run cfgC1 envC1).state.current_limit = 0 ∧
    addPinCount (run cfgC1 envC1).events = 0 ∧
    fetchCount (run cfgC1 envC1).events = 1 := by decide

/-- Claim C3: with totalPages = 1 and a non-empty first page, the loop body
does run exactly once on the already-fetched page (3 pins here), but the
code then issues one further fetch with page parameter 0
(query_params["page"] = page at page = 0), instead of stopping with no
further fetch as the spec requires — so the whole run performs 2 fetches,
not 1. -/
theorem c3_single_page_extra_fetch :
    (run cfgPlain envOne3).state.current_limit = 3 ∧
    fetchCount (run cfgPlain envOne3).events = 2 ∧
    Event.fetch 0 ∈ (run cfgPlain envOne3).events := by decide

/-- Claim C2, counterexample: a run whose only fetch fails with a
SearchError does not exit non-zero.  FlickParser.__exit__ returns True, so
the with-statement suppresses the exception and the process exit code
is 0. -/
theorem c2_error_suppressed_cex :
    (run cfgPlain envDown).bodyError = some (.flickrError "network down") ∧
    (run cfgPlain envDown).raised = none ∧
    exitCode (run cfgPlain envDown) = 0 := by decide

/-- Claim C5, counterexample: a page whose page-count field is missing does
not fail with a SchemaError (an AssertionError of the validator); the dict
lookup inside "assert isinstance(photos[...], int)" raises
KeyError("pages") first, so the existence of the page-count field is never
checked by an assertion. -/
theorem c5_missing_pages_cex :
    validate_api_response noPagesPage = .error (.keyError "pages") ∧
    isSchemaError (.keyError "pages") = false := ⟨rfl, rfl⟩

/-- Claim C8, counterexample: a run whose first page is empty performs two
saves of an empty map, not one — initialize_folium_map saves the empty
artifact during __init__ (after which __enter__ deletes the file), and
__exit__ saves the still-empty map again. -/
theorem c8_two_empty_saves_cex :
    (run cfgPlain envEmpty).state.current_limit = 0 ∧
    emptySaveCount (run cfgPlain envEmpty).events = 2 := by decide

/-- Claim C9, counterexample: map_refresh has no exception handling, so a
failing driver.refresh aborts the pagination loop: with refreshAfter = 1
and a 2-record page, only 1 pin is added before the WebDriverException
propagates out of parse — pagination and pin rendering do not continue. -/
theorem c9_reload_failure_aborts_cex :
    (run cfgRefresh1 envDriverFail).bodyError = some (.webDriverError "refresh failed") ∧
    addPinCount (run cfgRefresh1 envDriverFail).events = 1 ∧
    pageTwo.photoList.length = 2 := by decide

/-! Limit invariant (claim C4). -/

theorem map_refresh_current_limit (env : Env) (s : St) :
    (map_refresh env s).2.1.current_limit = s.current_limit := by
  unfold map_refresh
  cases env.driver s.refreshes <;> rfl

theorem photoLoop_le (cfg : Config) (env : Env) (l : Int)
    (hcfg : cfg.limit = some l) (hl : 0 < l) :
    ∀ photos s evs s' out, photoLoop cfg env photos s = (evs, s', out) →
      (s.current_limit : Int) ≤ l → (s'.current_limit : Int) ≤ l := by
  intro photos
  induction photos with
  | nil =>
    intro s evs s' out heq h
    simp only [photoLoop] at heq
    cases heq
    exact h
  | cons p rest ih =>
    intro s evs s' out heq h
    simp only [photoLoop] at heq
    split at heq
    · cases heq
      exact h
    · rename_i hstop
      have hlt : (s.current_limit : Int) < l := by
        rcases not_and_or.mp hstop with h1 | h2
        · exact absurd (by simp [limitTruthy, hcfg]; omega) h1
        · simp only [limitVal, hcfg] at h2
          omega
      split at heq
      · split at heq
        · rename_i mevs s₂ hmr
          cases heq
          have hcl : s₂.current_limit = s.current_limit + 1 := by
            have h2 := map_refresh_current_limit env
              ⟨s.current_limit + 1, s.pins ++ [⟨p.latitude, p.longitude, p.title⟩], s.refreshes⟩
            rw [hmr] at h2
            exact h2
          exact ih s₂ _ _ _ rfl (by rw [hcl]; push_cast; omega)
        · rename_i mevs e hmr
          cases heq
          have hcl : s'.current_limit = s.current_limit + 1 := by
            have h2 := map_refresh_current_limit env
              ⟨s.current_limit + 1, s.pins ++ [⟨p.latitude, p.longitude, p.title⟩], s.refreshes⟩
            rw [hmr] at h2
            exact h2
          rw [hcl]
          push_cast
          omega
      · cases heq
        exact ih _ _ _ _ rfl (by push_cast; omega)

theorem process_photo_page_le (cfg : Config) (env : Env) (l : Int)
    (hcfg : cfg.limit = some l) (hl : 0 < l)
    (page : Int) (photos : List Photo) (s : St) (evs : List Event) (s' : St)
    (res : Except PyErr Bool)
    (heq : process_photo_page cfg env page photos s = (evs, s', res))
    (h : (s.current_limit : Int) ≤ l) : (s'.current_limit : Int) ≤ l := by
  match photos with
  | [] =>
    simp only [process_photo_page] at heq
    cases heq
    exact h
  | ph :: rest =>
    simp only [process_photo_page] at heq
    split at heq
    · rename_i evs₁ s₁ hpl
      cases heq
      exact photoLoop_le cfg env l hcfg hl _ _ _ _ _ hpl h
    · rename_i evs₁ s₁ e hpl
      cases heq
      exact photoLoop_le cfg env l hcfg hl _ _ _ _ _ hpl h
    · rename_i evs₁ s₁ hpl
      have h₁ : (s₁.current_limit : Int) ≤ l := photoLoop_le cfg env l hcfg hl _ _ _ _ _ hpl h
      split at heq
      · split at heq
        · rename_i mevs s₂ hmr
          cases heq
          have h2 := map_refresh_current_limit env s₁
          rw [hmr] at h2
          rw [h2]
          exact h₁
        · rename_i mevs e hmr
          cases heq
          have h2 := map_refresh_current_limit env s₁
          rw [hmr] at h2
          rw [h2]
          exact h₁
      · cases heq
        exact h₁

theorem parseLoop_le (cfg : Config) (env : Env) (l : Int)
    (hcfg : cfg.limit = some l) (hl : 0 < l) (start : Int) :
    ∀ pages curPhotos s evs s' err,
      parseLoop cfg env start pages curPhotos s = (evs, s', err) →
      (s.current_limit : Int) ≤ l → (s'.current_limit : Int) ≤ l := by
  intro pages
  induction pages with
  | nil =>
    intro curPhotos s evs s' err heq h
    simp only [parseLoop] at heq
    cases heq
    exact h
  | cons page rest ih =>
    intro curPhotos s evs s' err heq h
    simp only [parseLoop] at heq
    split at heq
    · rename_i evs₁ s₁ e hpp
      cases heq
      exact process_photo_page_le cfg env l hcfg hl _ _ _ _ _ _ hpp h
    · rename_i evs₁ s₁ hpp
      cases heq
      exact process_photo_page_le cfg env l hcfg hl _ _ _ _ _ _ hpp h
    · rename_i evs₁ s₁ hpp
      have h₁ := process_photo_page_le cfg env l hcfg hl _ _ _ _ _ _ hpp h
      split at heq
      · cases heq
        exact h₁
      · rename_i evs₂ photos₂ hgp
        cases heq
        exact ih _ _ _ _ _ rfl h₁

theorem parse_le (cfg : Config) (env : Env) (l : Int)
    (hcfg : cfg.limit = some l) (hl : 0 < l)
    (s : St) (evs : List Event) (s' : St) (err : Option PyErr)
    (heq : parse cfg env s = (evs, s', err))
    (h : (s.current_limit : Int) ≤ l) : (s'.current_limit : Int) ≤ l := by
  simp only [parse] at heq
  split at heq
  · rename_i evs₁ e hgp
    cases heq
    exact h
  · rename_i evs₁ photos hgp
    split at heq
    · cases heq
      exact h
    · split at heq
      · cases heq
        exact h
      · rename_i t hto
        cases heq
        exact parseLoop_le cfg env l hcfg hl _ _ _ _ _ _ _ rfl h

/-- Claim C4: for every run with a configured limit l > 0, the processed
count never exceeds l at termination; the guard
"if self.limit and self.current_limit >= self.limit" runs before each pin
is added, and once the count has reached the limit, process_photo_page
stops the current page at once — no pin is added, the limit log is
emitted, the state is unchanged and False is returned, which makes the
parse loop terminate (it breaks on a False return). -/
theorem c4_limit_bound (cfg : Config) (env : Env) (l : Int)
    (hcfg : cfg.limit = some l) (hl : 0 < l) :
    ((run cfg env).state.current_limit : Int) ≤ l ∧
    (∀ page photos s, photos ≠ [] → l ≤ (s.current_limit : Int) →
      process_photo_page cfg env page photos s = ([Event.logLimitReached l], s, Except.ok false)) := by
  constructor
  · exact parse_le cfg env l hcfg hl ⟨0, [], 0⟩ _ _ _ rfl (by simpa using hl.le)
  · intro page photos s hne hge
    obtain ⟨ph, rest, rfl⟩ : ∃ ph rest, photos = ph :: rest := by
      cases photos with
      | nil => exact absurd rfl hne
      | cons a b => exact ⟨a, b, rfl⟩
    simp only [process_photo_page, photoLoop, hcfg, limitVal]
    rw [if_pos ⟨by simp [limitTruthy]; omega, hge⟩]

/-- Witness for c4_limit_bound: the hypotheses hold at the concrete
configuration with limit 5 and the single-page environment. -/
theorem c4_limit_bound_wit :
    (0 : Int) < 5 ∧ ((run cfgLimit5 envOne3).state.current_limit : Int) ≤ 5 :=
  ⟨by norm_num, (c4_limit_bound cfgLimit5 envOne3 5 rfl (by norm_num)).1⟩

/-! Error propagation at the context-manager boundary (claims C2, C9). -/

/-- Claim C2, amended: when the body of the run raises any exception
(SearchError, SchemaError, or any other), __exit__ reports it on the
error channel with the cause attached — but, because __exit__ returns
True, the exception is suppressed rather than surfaced: nothing escapes
the with-statement and the process exits with code 0, not non-zero. -/
theorem c2_error_logged_and_suppressed (cfg : Config) (env : Env) (e : PyErr)
    (h : (run cfg env).bodyError = some e) :
    (run cfg env).raised = none ∧ exitCode (run cfg env) = 0 ∧
    Event.logError "" (errStr e) ∈ (run cfg env).events := by
  refine ⟨rfl, rfl, ?_⟩
  have h' : (parse cfg env ⟨0, [], 0⟩).2.2 = some e := h
  simp [run, flickExit, h']

/-- Witness for c2_error_logged_and_suppressed at the failing-fetch
environment. -/
theorem c2_error_logged_and_suppressed_wit :
    (run cfgPlain envDown).raised = none ∧ exitCode (run cfgPlain envDown) = 0 :=
  ⟨(c2_error_logged_and_suppressed cfgPlain envDown (.flickrError "network down") (by decide)).1,
   (c2_error_logged_and_suppressed cfgPlain envDown (.flickrError "network down") (by decide)).2.1⟩

/-- Claim C9, amended: a viewer reload failure is not handled inside
map_refresh; the WebDriverException propagates and aborts the pagination
loop (see the counterexample), and is then caught at the context-manager
boundary, logged on the error channel, and suppressed, so the process
still exits with code 0. -/
theorem c9_reload_failure_suppressed (cfg : Config) (env : Env) (m : String)
    (h : (run cfg env).bodyError = some (.webDriverError m)) :
    (run cfg env).raised = none ∧ exitCode (run cfg env) = 0 ∧
    Event.logError "" m ∈ (run cfg env).events := by
  refine ⟨rfl, rfl, ?_⟩
  have h' : (parse cfg env ⟨0, [], 0⟩).2.2 = some (.webDriverError m) := h
  simp [run, flickExit, h', errStr]

/-- Witness for c9_reload_failure_suppressed at the failing-driver
environment. -/
theorem c9_reload_failure_suppressed_wit :
    (run cfgRefresh1 envDriverFail).raised = none ∧
    Event.logError "" "refresh failed" ∈ (run cfgRefresh1 envDriverFail).events :=
  ⟨(c9_reload_failure_suppressed cfgRefresh1 envDriverFail "refresh failed" (by decide)).1,
   (c9_reload_failure_suppressed cfgRefresh1 envDriverFail "refresh failed" (by decide)).2.2⟩

/-! Validator behaviour (claim C5) and the empty first page (claim C8). -/

/-- Claim C5, amended: the validator checks run in order — (a) the
results field exists (AssertionError naming it when missing), (b) it is
a list (AssertionError when not), (c) the page-count value is an integer
(AssertionError when not) — but the existence of the page-count field is
never checked by an assertion: when it is missing, the dict lookup inside
the third assert raises KeyError("pages") instead of a SchemaError.  The
run still aborts before any pin is added. -/
theorem c5_validator_checks :
    (∀ p, p.photo = none →
      validate_api_response p = .error (.assertionError "Photo key is missing")) ∧
    (∀ p v, p.photo = some v → v.isList = false →
      validate_api_response p =
        .error (.assertionError "Photos must be a list. Weird response from flickr")) ∧
    (∀ p ps, p.photo = some (.list ps) → p.pages = none →
      validate_api_response p = .error (.keyError "pages")) ∧
    (∀ p ps w, p.photo = some (.list ps) → p.pages = some w → w.isInt = false →
      validate_api_response p =
        .error (.assertionError "The number of pages should be an integer")) ∧
    (∀ cfg env p ps, env.api 1 = .ok p → p.photo = some (.list ps) → p.pages = none →
      (run cfg env).bodyError = some (.keyError "pages") ∧
      addPinCount (run cfg env).events = 0 ∧
      (run cfg env).state.current_limit = 0) := by
  refine ⟨?_, ?_, ?_, ?_, ?_⟩
  · intro p hp
    simp [validate_api_response, hp]
  · intro p v hp hv
    simp [validate_api_response, hp, hv]
  · intro p ps hp hpg
    simp [validate_api_response, hp, hpg, PVal.isList]
  · intro p ps w hp hpg hw
    simp [validate_api_response, hp, hpg, hw, PVal.isList]
  · intro cfg env p ps hapi hph hpg
    have hgp : get_photos env 1 = ([.fetch 1], .error (.keyError "pages")) := by
      simp [get_photos, hapi, validate_api_response, hph, hpg, PVal.isList]
    have hparse : parse cfg env ⟨0, [], 0⟩ = ([.fetch 1], ⟨0, [], 0⟩, some (.keyError "pages")) := by
      simp [parse, hgp]
    have hrun : run cfg env =
        { events := [.mapSave [], .driverOpen, .logInit, .removeMapFile, .fetch 1,
            .driverQuit, .mapSave [], .openMapCmd, .logError "" "pages"],
          state := ⟨0, [], 0⟩, bodyError := some (.keyError "pages"), raised := none } := by
      simp [run, hparse, flickExit, errStr]
    rw [hrun]
    exact ⟨rfl, by decide, rfl⟩

/-- Witness for c5_validator_checks at the missing-page-count page. -/
theorem c5_validator_checks_wit :
    validate_api_response noPagesPage = Except.error (.keyError "pages") ∧
    (run cfgPlain envNoPages).bodyError = some (.keyError "pages") :=
  ⟨c5_validator_checks.2.2.1 noPagesPage [] rfl rfl,
   (c5_validator_checks.2.2.2.2 cfgPlain envNoPages noPagesPage [] rfl rfl rfl).1⟩

/-- Claim C8, amended: when page 1 has zero results, the loop terminates
immediately (only the initial fetch happens, no pin is added,
processedCount is 0), but two saves of an empty map occur over the whole
run, not one — the initialization save of __init__ (whose artifact
__enter__ then deletes) and the final save of __exit__. -/
theorem c8_empty_run_two_saves (cfg : Config) (env : Env) (p : RawPage) (n : Int)
    (hapi : env.api 1 = .ok p) (hph : p.photo = some (.list []))
    (hpg : p.pages = some (.int n)) :
    (run cfg env).state.current_limit = 0 ∧
    addPinCount (run cfg env).events = 0 ∧
    fetchCount (run cfg env).events = 1 ∧
    emptySaveCount (run cfg env).events = 2 := by
  have hgp : get_photos env 1 = ([.fetch 1], .ok p) := by
    simp [get_photos, hapi, validate_api_response, hph, hpg, PVal.isList, PVal.isInt]
  have hparse : parse cfg env ⟨0, [], 0⟩ = ([.fetch 1, .logNoImages], ⟨0, [], 0⟩, none) := by
    simp [parse, hgp, RawPage.photoList, hph]
  have hrun : run cfg env =
      { events := [.mapSave [], .driverOpen, .logInit, .removeMapFile, .fetch 1, .logNoImages,
          .driverQuit, .mapSave [], .openMapCmd],
        state := ⟨0, [], 0⟩, bodyError := none, raised := none } := by
    simp [run, hparse, flickExit]
  rw [hrun]
  exact ⟨rfl, by decide, by decide, by decide⟩

/-- Witness for c8_empty_run_two_saves at the zero-result environment. -/
theorem c8_empty_run_two_saves_wit :
    fetchCount (run cfgPlain envEmpty).events = 1 ∧
    emptySaveCount (run cfgPlain envEmpty).events = 2 :=
  ⟨(c8_empty_run_two_saves cfgPlain envEmpty ⟨some (.list []), some (.int 0), none⟩ 0
      rfl rfl rfl).2.2.1,
   (c8_empty_run_two_saves cfgPlain envEmpty ⟨some (.list []), some (.int 0), none⟩ 0
      rfl rfl rfl).2.2.2⟩

/-! A falsy limit disables the cap; a negative one blocks everything
(claim C10). -/

theorem photoLoop_cfg_irrel (cfg₁ cfg₂ : Config) (env : Env)
    (h₁ : limitTruthy cfg₁.limit = false) (h₂ : limitTruthy cfg₂.limit = false)
    (hr : cfg₁.refresh_map_after = cfg₂.refresh_map_after) :
    ∀ photos s, photoLoop cfg₁ env photos s = photoLoop cfg₂ env photos s := by
  intro photos
  induction photos with
  | nil => intro s; rfl
  | cons p rest ih =>
    intro s
    simp [photoLoop, h₁, h₂, hr, ih]

theorem process_cfg_irrel (cfg₁ cfg₂ : Config) (env : Env)
    (h₁ : limitTruthy cfg₁.limit = false) (h₂ : limitTruthy cfg₂.limit = false)
    (hr : cfg₁.refresh_map_after = cfg₂.refresh_map_after)
    (page : Int) (photos : List Photo) (s : St) :
    process_photo_page cfg₁ env page photos s = process_photo_page cfg₂ env page photos s := by
  match photos with
  | [] => rfl
  | ph :: rest =>
    simp [process_photo_page, photoLoop_cfg_irrel cfg₁ cfg₂ env h₁ h₂ hr, hr]

theorem parseLoop_cfg_irrel (cfg₁ cfg₂ : Config) (env : Env)
    (h₁ : limitTruthy cfg₁.limit = false) (h₂ : limitTruthy cfg₂.limit = false)
    (hr : cfg₁.refresh_map_after = cfg₂.refresh_map_after) (start : Int) :
    ∀ pages curPhotos s,
      parseLoop cfg₁ env start pages curPhotos s = parseLoop cfg₂ env start pages curPhotos s := by
  intro pages
  induction pages with
  | nil => intro curPhotos s; rfl
  | cons page rest ih =>
    intro curPhotos s
    simp [parseLoop, process_cfg_irrel cfg₁ cfg₂ env h₁ h₂ hr, ih]

theorem run_cfg_irrel (cfg₁ cfg₂ : Config) (env : Env)
    (h₁ : limitTruthy cfg₁.limit = false) (h₂ : limitTruthy cfg₂.limit = false)
    (hr : cfg₁.refresh_map_after = cfg₂.refresh_map_after) :
    run cfg₁ env = run cfg₂ env := by
  have hp : parse cfg₁ env ⟨0, [], 0⟩ = parse cfg₂ env ⟨0, [], 0⟩ := by
    simp [parse, parseLoop_cfg_irrel cfg₁ cfg₂ env h₁ h₂ hr]
  simp [run, hp]

theorem photoLoop_neg (cfg : Config) (env : Env) (l : Int)
    (hcfg : cfg.limit = some l) (hneg : l < 0) (ph : Photo) (rest : List Photo) (s : St) :
    photoLoop cfg env (ph :: rest) s = ([.logLimitReached l], s, .retFalse) := by
  simp only [photoLoop, hcfg, limitVal]
  rw [if_pos ⟨by simp [limitTruthy]; omega, by omega⟩]

theorem process_neg (cfg : Config) (env : Env) (l : Int)
    (hcfg : cfg.limit = some l) (hneg : l < 0) (page : Int) (photos : List Photo) (s : St) :
    ∃ evs, process_photo_page cfg env page photos s = (evs, s, .ok false) ∧
      addPinCount evs = 0 := by
  match photos with
  | [] => exact ⟨[.logNoPhotos page], by simp [process_photo_page], rfl⟩
  | ph :: rest =>
    refine ⟨[.logLimitReached l], ?_, rfl⟩
    simp [process_photo_page, photoLoop_neg cfg env l hcfg hneg]

theorem get_photos_no_pin (env : Env) (page : Int) :
    addPinCount (get_photos env page).1 = 0 := by
  simp only [get_photos]
  split
  · rfl
  · split <;> rfl

theorem parseLoop_neg (cfg : Config) (env : Env) (l : Int)
    (hcfg : cfg.limit = some l) (hneg : l < 0) (start : Int) :
    ∀ pages curPhotos s, ∃ evs,
      parseLoop cfg env start pages curPhotos s = (evs, s, none) ∧ addPinCount evs = 0 := by
  intro pages
  match pages with
  | [] => intro curPhotos s; exact ⟨[], rfl, rfl⟩
  | page :: rest =>
    intro curPhotos s
    obtain ⟨evs, hpp, hcnt⟩ := process_neg cfg env l hcfg hneg page curPhotos s
    refine ⟨Event.logProcessingPage (if start = 0 then page + 1 else page - 1) :: evs, ?_, ?_⟩
    · simp [parseLoop, hpp]
    · simpa [addPinCount, isAddPinEv] using hcnt

theorem parse_neg (cfg : Config) (env : Env) (l : Int)
    (hcfg : cfg.limit = some l) (hneg : l < 0) (s : St) :
    ∃ evs err, parse cfg env s = (evs, s, err) ∧ addPinCount evs = 0 := by
  rcases hgp : get_photos env 1 with ⟨gevs, gres⟩
  have hg0 : addPinCount gevs = 0 := by
    have h := get_photos_no_pin env 1
    rw [hgp] at h
    exact h
  match gres with
  | .error e =>
    refine ⟨gevs, some e, ?_, hg0⟩
    simp [parse, hgp]
  | .ok photos =>
    by_cases hemp : photos.photoList.length = 0
    · refine ⟨gevs ++ [.logNoImages], none, ?_, ?_⟩
      · simp [parse, hgp, hemp]
      · simp only [addPinCount, List.countP_append] at hg0 ⊢
        simp [hg0, isAddPinEv]
    · match hto : photos.total with
      | none =>
        refine ⟨gevs, some (.keyError "total"), ?_, hg0⟩
        simp [parse, hgp, hemp, hto]
      | some t =>
        obtain ⟨evs₂, hpl, hcnt₂⟩ := parseLoop_neg cfg env l hcfg hneg
          (if photos.pagesInt = 1 then 0 else 2)
          (pyRange (if photos.pagesInt = 1 then 0 else 2) photos.pagesInt)
          photos.photoList s
        refine ⟨gevs ++ [Event.logStartProcess t] ++ evs₂, none, ?_, ?_⟩
        · simp [parse, hgp, hemp, hto, hpl]
        · simp only [addPinCount, List.countP_append] at hg0 hcnt₂ ⊢
          simp [hg0, hcnt₂, isAddPinEv]

theorem flickExit_no_pin (err : Option PyErr) (s : St) :
    addPinCount (flickExit err s).1 = 0 := by
  cases err <;> rfl

/-- Claim C10: a limit supplied as 0 is already turned into None by main
("int(args.limit) if args.limit else None"), and even when a limit of 0
reaches the parser directly, the truthiness guard "if self.limit and ..."
makes the whole run identical to a run with no limit configured.  A
negative limit, by contrast, satisfies the guard at the very first
record (current_limit 0 >= limit), so no record is ever processed. -/
theorem c10_limit_zero_unlimited :
    (∀ h rma env, run ⟨h, mainLimit (some 0), rma⟩ env = run ⟨h, none, rma⟩ env) ∧
    (∀ h rma env, run ⟨h, some 0, rma⟩ env = run ⟨h, none, rma⟩ env) ∧
    (∀ cfg env l, cfg.limit = some l → l < 0 →
      (run cfg env).state.current_limit = 0 ∧ addPinCount (run cfg env).events = 0) := by
  refine ⟨fun h rma env => rfl, fun h rma env => run_cfg_irrel _ _ env rfl rfl rfl, ?_⟩
  intro cfg env l hcfg hneg
  obtain ⟨evs, err, hp, hcnt⟩ := parse_neg cfg env l hcfg hneg ⟨0, [], 0⟩
  constructor
  · show (run cfg env).state.current_limit = 0
    have hst : (run cfg env).state = ⟨0, [], 0⟩ := by simp [run, hp]
    rw [hst]
  · show addPinCount (run cfg env).events = 0
    have hev : (run cfg env).events =
        ([Event.mapSave [], .driverOpen, .logInit, .removeMapFile] ++ evs) ++
          (flickExit err ⟨0, [], 0⟩).1 := by
      simp [run, hp]
    rw [hev]
    simp only [addPinCount, List.countP_append] at hcnt ⊢
    have h2 := flickExit_no_pin err ⟨0, [], 0⟩
    simp only [addPinCount] at h2
    simp [hcnt, h2, isAddPinEv]

/-- Witness for c10_limit_zero_unlimited: limit 0 equals no limit on the
single-page environment, and limit -1 processes zero records there. -/
theorem c10_limit_zero_unlimited_wit :
    run cfgLimitZero envOne3 = run cfgPlain envOne3 ∧
    (run cfgLimitNeg envOne3).state.current_limit = 0 :=
  ⟨c10_limit_zero_unlimited.2.1 "x" 0 envOne3,
   (c10_limit_zero_unlimited.2.2 cfgLimitNeg envOne3 (-1) rfl (by norm_num)).1⟩

/-! Refresh cadence (claims C6, C7). -/

theorem photoLoop_counts0 (cfg : Config) (env : Env) (h0 : cfg.refresh_map_after = 0) :
    ∀ photos s, refreshCount (photoLoop cfg env photos s).1 = 0 ∧
      logProcCount (photoLoop cfg env photos s).1 = 0 := by
  intro photos
  induction photos with
  | nil => intro s; exact ⟨rfl, rfl⟩
  | cons p rest ih =>
    intro s
    simp only [photoLoop]
    split
    · exact ⟨rfl, rfl⟩
    · rw [if_neg (by simp [h0])]
      obtain ⟨h1, h2⟩ := ih ⟨s.current_limit + 1, s.pins ++ [⟨p.latitude, p.longitude, p.title⟩], s.refreshes⟩
      simp [refreshCount, logProcCount, List.countP_cons, isRefreshEv, isLogProcessedEv] at h1 h2 ⊢
      exact ⟨h1, h2⟩

theorem process_counts0 (cfg : Config) (env : Env) (h0 : cfg.refresh_map_after = 0)
    (page : Int) (photos : List Photo) (s : St) (evs : List Event) (s' : St)
    (res : Except PyErr Bool)
    (heq : process_photo_page cfg env page photos s = (evs, s', res)) :
    refreshCount evs = logProcCount evs ∧ (res = .ok false → refreshCount evs = 0) := by
  match photos with
  | [] =>
    simp only [process_photo_page] at heq
    cases heq
    exact ⟨rfl, fun _ => rfl⟩
  | ph :: rest =>
    simp only [process_photo_page] at heq
    obtain ⟨hl1, hl2⟩ := photoLoop_counts0 cfg env h0 (ph :: rest) s
    split at heq
    · rename_i evs₁ s₁ hpl
      cases heq
      rw [hpl] at hl1 hl2
      exact ⟨by rw [hl1, hl2], fun _ => hl1⟩
    · rename_i evs₁ s₁ e hpl
      cases heq
      rw [hpl] at hl1 hl2
      exact ⟨by rw [hl1, hl2], fun hcon => by cases hcon⟩
    · rename_i evs₁ s₁ hpl
      rw [if_pos h0] at heq
      rw [hpl] at hl1 hl2
      rcases hdr : env.driver s₁.refreshes with _ | m
      · simp only [map_refresh, hdr] at heq
        cases heq
        refine ⟨?_, fun hcon => by cases hcon⟩
        simp only [refreshCount, logProcCount, List.countP_append] at hl1 hl2 ⊢
        rw [hl1, hl2]
        simp [List.countP_cons, isRefreshEv, isLogProcessedEv]
      · simp only [map_refresh, hdr] at heq
        cases heq
        refine ⟨?_, fun hcon => by cases hcon⟩
        simp only [refreshCount, logProcCount, List.countP_append] at hl1 hl2 ⊢
        rw [hl1, hl2]
        simp [List.countP_cons, isRefreshEv, isLogProcessedEv]

theorem get_photos_counts (env : Env) (page : Int) (gevs : List Event)
    (res : Except PyErr RawPage) (h : get_photos env page = (gevs, res)) :
    refreshCount gevs = 0 ∧ logProcCount gevs = 0 := by
  simp only [get_photos] at h
  split at h
  · cases h; exact ⟨rfl, rfl⟩
  · split at h
    · cases h; exact ⟨rfl, rfl⟩
    · cases h; exact ⟨rfl, rfl⟩

theorem parseLoop_counts0 (cfg : Config) (env : Env) (h0 : cfg.refresh_map_after = 0)
    (start : Int) :
    ∀ pages curPhotos s evs s' err,
      parseLoop cfg env start pages curPhotos s = (evs, s', err) →
      refreshCount evs = logProcCount evs := by
  intro pages
  induction pages with
  | nil =>
    intro curPhotos s evs s' err heq
    simp only [parseLoop] at heq
    cases heq
    rfl
  | cons page rest ih =>
    intro curPhotos s evs s' err heq
    simp only [parseLoop] at heq
    split at heq
    · rename_i pevs s₁ e hpp
      cases heq
      have h₁ := (process_counts0 cfg env h0 page curPhotos s _ _ _ hpp).1
      simp only [refreshCount, logProcCount, List.countP_cons] at h₁ ⊢
      simp [isRefreshEv, isLogProcessedEv, h₁]
    · rename_i pevs s₁ hpp
      cases heq
      have h₁ := (process_counts0 cfg env h0 page curPhotos s _ _ _ hpp).1
      simp only [refreshCount, logProcCount, List.countP_cons] at h₁ ⊢
      simp [isRefreshEv, isLogProcessedEv, h₁]
    · rename_i pevs s₁ hpp
      have h₁ := (process_counts0 cfg env h0 page curPhotos s _ _ _ hpp).1
      split at heq
      · rename_i gevs e hgp
        cases heq
        obtain ⟨hg1, hg2⟩ := get_photos_counts env page _ _ hgp
        simp only [refreshCount, logProcCount, List.countP_append, List.countP_cons]
          at h₁ hg1 hg2 ⊢
        simp [isRefreshEv, isLogProcessedEv]
        omega
      · rename_i gevs photos₂ hgp
        cases heq
        obtain ⟨hg1, hg2⟩ := get_photos_counts env page _ _ hgp
        have h₂ := ih photos₂.photoList s₁ _ _ _ rfl
        simp only [refreshCount, logProcCount, List.countP_append, List.countP_cons]
          at h₁ hg1 hg2 h₂ ⊢
        simp [isRefreshEv, isLogProcessedEv]
        omega

theorem parse_counts0 (cfg : Config) (env : Env) (h0 : cfg.refresh_map_after = 0)
    (s : St) (evs : List Event) (s' : St) (err : Option PyErr)
    (heq : parse cfg env s = (evs, s', err)) :
    refreshCount evs = logProcCount evs := by
  simp only [parse] at heq
  split at heq
  · rename_i gevs e hgp
    cases heq
    obtain ⟨hg1, hg2⟩ := get_photos_counts env 1 _ _ hgp
    rw [hg1, hg2]
  · rename_i gevs photos hgp
    obtain ⟨hg1, hg2⟩ := get_photos_counts env 1 _ _ hgp
    split at heq
    · cases heq
      simp only [refreshCount, logProcCount, List.countP_append, List.countP_cons]
        at hg1 hg2 ⊢
      simp [isRefreshEv, isLogProcessedEv, hg1, hg2]
    · split at heq
      · cases heq
        rw [hg1, hg2]
      · rename_i t hto
        cases heq
        have h₂ := parseLoop_counts0 cfg env h0 (if photos.pagesInt = 1 then 0 else 2)
          (pyRange (if photos.pagesInt = 1 then 0 else 2) photos.pagesInt)
          photos.photoList s _ _ _ rfl
        simp only [refreshCount, logProcCount, List.countP_append, List.countP_cons]
          at hg1 hg2 h₂ ⊢
        simp [isRefreshEv, isLogProcessedEv]
        omega

/-- Claim C7: with refreshAfter = 0, the page-boundary refresh is the
only reload source, and it fires exactly once per page that completed
processing (each completed page logs its processed count once, right
after its boundary refresh), so over any run the number of driver
reloads equals the number of completed pages; a page whose processing
returns False — abandoned for the limit, or empty — triggers no
reload at all. -/
theorem c7_page_boundary_refresh (cfg : Config) (env : Env) (h0 : cfg.refresh_map_after = 0) :
    refreshCount (run cfg env).events = logProcCount (run cfg env).events ∧
    (∀ page photos s evs s', process_photo_page cfg env page photos s = (evs, s', .ok false) →
      refreshCount evs = 0) := by
  constructor
  · rcases hp : parse cfg env ⟨0, [], 0⟩ with ⟨evs, s₁, err⟩
    have h₁ := parse_counts0 cfg env h0 _ _ _ _ hp
    have hev : (run cfg env).events =
        ([Event.mapSave [], .driverOpen, .logInit, .removeMapFile] ++ evs) ++
          (flickExit err s₁).1 := by
      simp [run, hp]
    rw [hev]
    have hex : refreshCount (flickExit err s₁).1 = 0 ∧ logProcCount (flickExit err s₁).1 = 0 := by
      cases err <;> exact ⟨rfl, rfl⟩
    simp only [refreshCount, logProcCount, List.countP_append, List.countP_cons]
      at h₁ hex ⊢
    simp [isRefreshEv, isLogProcessedEv]
    omega
  · intro page photos s evs s' heq
    exact (process_counts0 cfg env h0 page photos s evs s' _ heq).2 rfl

theorem rtrace_append (a b : List Event) : rtrace (a ++ b) = rtrace a ++ rtrace b := by
  simp [rtrace]

theorem canonSeg_append (k : Int) (b : Nat) :
    ∀ a m, canonSeg k m (a + b) = canonSeg k m a ++ canonSeg k (m + a) b := by
  intro a
  induction a with
  | zero =>
    intro m
    simp [canonSeg]
  | succ a ih =>
    intro m
    have h1 : a + 1 + b = (a + b) + 1 := by omega
    rw [h1]
    simp only [canonSeg]
    rw [ih (m + 1)]
    have h2 : m + 1 + a = m + (a + 1) := by omega
    rw [h2]
    simp [List.append_assoc]

theorem photoLoop_trace (cfg : Config) (env : Env) (k : Int)
    (hk : cfg.refresh_map_after = k) (hk0 : k ≠ 0)
    (hdrv : ∀ n, env.driver n = none) :
    ∀ photos s evs s' out, photoLoop cfg env photos s = (evs, s', out) →
      ∃ d, s'.current_limit = s.current_limit + d ∧
        rtrace evs = canonSeg k s.current_limit d ∧
        ∀ e, out ≠ .raised e := by
  intro photos
  induction photos with
  | nil =>
    intro s evs s' out heq
    simp only [photoLoop] at heq
    cases heq
    exact ⟨0, rfl, rfl, fun e h => by cases h⟩
  | cons p rest ih =>
    intro s evs s' out heq
    simp only [photoLoop] at heq
    split at heq
    · cases heq
      exact ⟨0, rfl, rfl, fun e h => by cases h⟩
    · split at heq
      · rename_i hcond
        simp only [map_refresh, hdrv] at heq
        cases heq
        obtain ⟨d, hcl, htr, hnr⟩ := ih
          ⟨s.current_limit + 1, s.pins ++ [⟨p.latitude, p.longitude, p.title⟩],
            s.refreshes + 1⟩ _ _ _ rfl
        rw [hk] at hcond
        refine ⟨d + 1, by simp at hcl ⊢; omega, ?_, hnr⟩
        simp only [canonSeg, if_pos hcond.2]
        simp only [rtrace, List.filterMap_cons, toREv, List.filterMap_append] at htr ⊢
        simp at htr ⊢
        exact htr
      · rename_i hcond
        cases heq
        obtain ⟨d, hcl, htr, hnr⟩ := ih
          ⟨s.current_limit + 1, s.pins ++ [⟨p.latitude, p.longitude, p.title⟩],
            s.refreshes⟩ _ _ _ rfl
        rw [hk] at hcond
        have hmod : ¬ ((s.current_limit + 1 : Nat) : Int).emod k = 0 := fun hc =>
          hcond ⟨hk0, hc⟩
        refine ⟨d + 1, by simp at hcl ⊢; omega, ?_, hnr⟩
        simp only [canonSeg, if_neg hmod]
        simp only [rtrace, List.filterMap_cons, toREv] at htr ⊢
        simp at htr ⊢
        exact htr

theorem process_trace (cfg : Config) (env : Env) (k : Int)
    (hk : cfg.refresh_map_after = k) (hk0 : k ≠ 0)
    (hdrv : ∀ n, env.driver n = none)
    (page : Int) (photos : List Photo) (s : St) (evs : List Event) (s' : St)
    (res : Except PyErr Bool)
    (heq : process_photo_page cfg env page photos s = (evs, s', res)) :
    ∃ d, s'.current_limit = s.current_limit + d ∧
      rtrace evs = canonSeg k s.current_limit d := by
  match photos with
  | [] =>
    simp only [process_photo_page] at heq
    cases heq
    exact ⟨0, rfl, rfl⟩
  | ph :: rest =>
    simp only [process_photo_page] at heq
    split at heq
    · rename_i evs₁ s₁ hpl
      cases heq
      obtain ⟨d, hcl, htr, _⟩ := photoLoop_trace cfg env k hk hk0 hdrv _ _ _ _ _ hpl
      exact ⟨d, hcl, htr⟩
    · rename_i evs₁ s₁ e hpl
      obtain ⟨d, hcl, htr, hnr⟩ := photoLoop_trace cfg env k hk hk0 hdrv _ _ _ _ _ hpl
      exact absurd rfl (hnr e)
    · rename_i evs₁ s₁ hpl
      rw [if_neg (by rw [hk]; exact hk0)] at heq
      cases heq
      obtain ⟨d, hcl, htr, _⟩ := photoLoop_trace cfg env k hk hk0 hdrv _ _ _ _ _ hpl
      refine ⟨d, hcl, ?_⟩
      rw [rtrace_append, htr]
      simp [rtrace, toREv]

theorem get_photos_rtrace (env : Env) (page : Int) (gevs : List Event)
    (res : Except PyErr RawPage) (h : get_photos env page = (gevs, res)) :
    rtrace gevs = [] := by
  simp only [get_photos] at h
  split at h
  · cases h; rfl
  · split at h
    · cases h; rfl
    · cases h; rfl

theorem parseLoop_trace (cfg : Config) (env : Env) (k : Int)
    (hk : cfg.refresh_map_after = k) (hk0 : k ≠ 0)
    (hdrv : ∀ n, env.driver n = none) (start : Int) :
    ∀ pages curPhotos s evs s' err,
      parseLoop cfg env start pages curPhotos s = (evs, s', err) →
      ∃ d, s'.current_limit = s.current_limit + d ∧
        rtrace evs = canonSeg k s.current_limit d := by
  intro pages
  induction pages with
  | nil =>
    intro curPhotos s evs s' err heq
    simp only [parseLoop] at heq
    cases heq
    exact ⟨0, rfl, rfl⟩
  | cons page rest ih =>
    intro curPhotos s evs s' err heq
    simp only [parseLoop] at heq
    split at heq
    · rename_i pevs s₁ e hpp
      cases heq
      obtain ⟨d, hcl, htr⟩ := process_trace cfg env k hk hk0 hdrv _ _ _ _ _ _ hpp
      refine ⟨d, hcl, ?_⟩
      simp only [rtrace, List.filterMap_cons, toREv] at htr ⊢
      exact htr
    · rename_i pevs s₁ hpp
      cases heq
      obtain ⟨d, hcl, htr⟩ := process_trace cfg env k hk hk0 hdrv _ _ _ _ _ _ hpp
      refine ⟨d, hcl, ?_⟩
      simp only [rtrace, List.filterMap_cons, toREv] at htr ⊢
      exact htr
    · rename_i pevs s₁ hpp
      obtain ⟨d₁, hcl₁, htr₁⟩ := process_trace cfg env k hk hk0 hdrv _ _ _ _ _ _ hpp
      split at heq
      · rename_i gevs e hgp
        cases heq
        have hg := get_photos_rtrace env page _ _ hgp
        refine ⟨d₁, hcl₁, ?_⟩
        rw [rtrace_append, hg]
        simp only [rtrace, List.filterMap_cons, toREv] at htr₁ ⊢
        simp at htr₁ ⊢
        exact htr₁
      · rename_i gevs photos₂ hgp
        cases heq
        have hg := get_photos_rtrace env page _ _ hgp
        obtain ⟨d₂, hcl₂, htr₂⟩ := ih photos₂.photoList s₁ _ _ _ rfl
        refine ⟨d₁ + d₂, by omega, ?_⟩
        rw [rtrace_append, rtrace_append, hg]
        rw [canonSeg_append k d₂ d₁ s.current_limit]
        simp only [rtrace, List.filterMap_cons, toREv] at htr₁ htr₂ ⊢
        simp at htr₁ htr₂ ⊢
        rw [htr₁, htr₂, hcl₁]

theorem parse_trace (cfg : Config) (env : Env) (k : Int)
    (hk : cfg.refresh_map_after = k) (hk0 : k ≠ 0)
    (hdrv : ∀ n, env.driver n = none)
    (s : St) (evs : List Event) (s' : St) (err : Option PyErr)
    (heq : parse cfg env s = (evs, s', err)) :
    ∃ d, s'.current_limit = s.current_limit + d ∧
      rtrace evs = canonSeg k s.current_limit d := by
  simp only [parse] at heq
  split at heq
  · rename_i gevs e hgp
    cases heq
    exact ⟨0, rfl, get_photos_rtrace env 1 _ _ hgp⟩
  · rename_i gevs photos hgp
    have hg := get_photos_rtrace env 1 _ _ hgp
    split at heq
    · cases heq
      refine ⟨0, rfl, ?_⟩
      rw [rtrace_append, hg]
      rfl
    · split at heq
      · cases heq
        exact ⟨0, rfl, hg⟩
      · rename_i t hto
        cases heq
        obtain ⟨d, hcl, htr⟩ := parseLoop_trace cfg env k hk hk0 hdrv
          (if photos.pagesInt = 1 then 0 else 2)
          (pyRange (if photos.pagesInt = 1 then 0 else 2) photos.pagesInt)
          photos.photoList s _ _ _ rfl
        refine ⟨d, hcl, ?_⟩
        rw [rtrace_append, rtrace_append, hg]
        simp only [rtrace, List.filterMap_cons, toREv] at htr ⊢
        simp at htr ⊢
        exact htr

/-- Claim C6: with refreshAfter = k > 0 and a driver whose reloads
succeed, the projection of the whole run onto pin additions, driver
reloads and the terminal artifact opening is exactly: the processed pins
in order, a reload immediately after each pin addition whose running
count is an exact multiple of k (so reloads can happen mid-page), and
exactly one terminal opening of the final artifact at the very end. -/
theorem c6_refresh_multiples (cfg : Config) (env : Env) (k : Int)
    (hk : cfg.refresh_map_after = k) (hkpos : 0 < k)
    (hdrv : ∀ n, env.driver n = none) :
    rtrace (run cfg env).events =
      canonSeg k 0 (run cfg env).state.current_limit ++ [REv.opened] := by
  rcases hp : parse cfg env ⟨0, [], 0⟩ with ⟨evs, s₁, err⟩
  obtain ⟨d, hcl, htr⟩ := parse_trace cfg env k hk (by omega) hdrv _ _ _ _ hp
  have hev : (run cfg env).events =
      ([Event.mapSave [], .driverOpen, .logInit, .removeMapFile] ++ evs) ++
        (flickExit err s₁).1 := by
    simp [run, hp]
  have hst : (run cfg env).state = s₁ := by simp [run, hp]
  have hexit : rtrace (flickExit err s₁).1 = [REv.opened] := by cases err <;> rfl
  rw [hev, hst]
  rw [rtrace_append, rtrace_append, hexit, htr]
  simp only at hcl
  rw [hcl]
  simp [canonSeg, rtrace, toREv, List.filterMap_cons]

/-- Witness for c7_page_boundary_refresh at the default configuration
and the single-page environment. -/
theorem c7_page_boundary_refresh_wit :
    refreshCount (run cfgPlain envOne3).events = logProcCount (run cfgPlain envOne3).events :=
  (c7_page_boundary_refresh cfgPlain envOne3 rfl).1

/-- Witness for c6_refresh_multiples with refreshAfter = 2 on the
single-page 3-record environment. -/
theorem c6_refresh_multiples_wit :
    rtrace (run cfgRefresh2 envOne3).events =
      canonSeg 2 0 (run cfgRefresh2 envOne3).state.current_limit ++ [REv.opened] :=
  c6_refresh_multiples cfgRefresh2 envOne3 2 rfl (by norm_num) (fun n => rfl)


end Flickr
